import Mathlib

/-!
Verification of the FreeMatch-style trainer (`src/trainer.py`, class
`FreeMatchTrainer`) against its natural-language specification.

Shallow embedding conventions:
* tensor scalars are modelled by `ℚ` (exact arithmetic; `.cpu()` and
  `.detach()` are identity on values);
* a 1-d tensor is `List ℚ`, a 2-d tensor is `List (List ℚ)`;
* Python `None` entries in a gradient list are `Option`;
* a Python statement that raises (failed `assert`, `torch.cat` on an empty
  tensor list, an unbound local name) makes the surrounding computation
  return `none` / `Except.error`.
-/

namespace FreeMatch

/-! ## Checkpoint save / load (`__save__model__`, lines 435-451, and
`__load__model__`, lines 454-473) -/

/-- The trainer fields that participate in checkpointing.  The four opaque
collaborator state dicts (online model, EMA wrapper, optimizer, scheduler)
are modelled as value lists; the algorithm-specific fields are the
iteration counter, best-accuracy bookkeeping and the (τ, p, h) statistics
(`curr_iter`, `best_test_iter`, `best_test_acc`, `tau_t`, `p_t`,
`label_hist` in `trainer.py`). -/
structure TrainerCore where
  model_sd : List ℚ
  ema_sd : List ℚ
  optim_sd : List ℚ
  sched_sd : List ℚ
  curr_iter : Nat
  best_test_iter : Int
  best_test_acc : ℚ
  tau_t : ℚ
  p_t : List ℚ
  label_hist : List ℚ
deriving DecidableEq

/-- The record written by `__save__model__` (lines 437-448): one key per
entry of `save_dict`.  `.cpu()` moves a tensor to host memory and is the
identity on its values. -/
structure Checkpoint where
  model_state_dict : List ℚ
  ema_state_dict : List ℚ
  optimizer_state_dict : List ℚ
  scheduler_state_dict : List ℚ
  curr_iter : Nat
  best_test_iter : Int
  best_test_acc : ℚ
  tau_t : ℚ
  p_t : List ℚ
  label_hist : List ℚ
deriving DecidableEq

/-- `__save__model__` (lines 435-451): build `save_dict` from the trainer
state. -/
def saveModel (s : TrainerCore) : Checkpoint where
  model_state_dict := s.model_sd
  ema_state_dict := s.ema_sd
  optimizer_state_dict := s.optim_sd
  scheduler_state_dict := s.sched_sd
  curr_iter := s.curr_iter
  best_test_iter := s.best_test_iter
  best_test_acc := s.best_test_acc
  tau_t := s.tau_t
  p_t := s.p_t
  label_hist := s.label_hist

/-- `__load__model__` (lines 454-473): overwrite the trainer state with the
checkpoint's entries. -/
def loadModel (_s : TrainerCore) (ckpt : Checkpoint) : TrainerCore where
  model_sd := ckpt.model_state_dict
  ema_sd := ckpt.ema_state_dict
  optim_sd := ckpt.optimizer_state_dict
  sched_sd := ckpt.scheduler_state_dict
  curr_iter := ckpt.curr_iter
  best_test_iter := ckpt.best_test_iter
  best_test_acc := ckpt.best_test_acc
  tau_t := ckpt.tau_t
  p_t := ckpt.p_t
  label_hist := ckpt.label_hist

/-! ## Initial statistics (`__init__`, lines 102-107 and 119-121) -/

/-- `torch.Tensor.mean` on a 1-d tensor: sum divided by length (`ℚ`
division by zero yields `0`, standing in for the NaN of an empty mean;
all uses below assume a positive length). -/
def tmean (v : List ℚ) : ℚ := v.sum / (v.length : ℚ)

/-- The (τ, p, h) statistics triple (`tau_t`, `p_t`, `label_hist`). -/
structure Stats where
  tau_t : ℚ
  p_t : List ℚ
  label_hist : List ℚ
deriving DecidableEq

/-- `__init__` lines 105-107:
`p_t = torch.ones(C) / C`, `label_hist = torch.ones(C) / C`,
`tau_t = p_t.mean()`. -/
def initStats (num_classes : Nat) : Stats where
  tau_t := tmean (List.replicate num_classes (1 / (num_classes : ℚ)))
  p_t := List.replicate num_classes (1 / (num_classes : ℚ))
  label_hist := List.replicate num_classes (1 / (num_classes : ℚ))

/-- `__init__` lines 119-121: `warmup_train` runs only when
`num_warmup_iters > 0`; the effect of a warmup run on the statistics is an
arbitrary transformer `warmup`. -/
def statsAfterWarmupPhase (num_warmup_iters : Nat) (warmup : Stats → Stats)
    (s : Stats) : Stats :=
  if 0 < num_warmup_iters then warmup s else s

/-! ## Warmup loop counter (`warmup_train`, lines 145-204) -/

/-- The `warmup_train` loop, projected onto the iteration counter.
`fuel` is the number of batches the labeled loader still yields.  Each
pass first checks `curr_iter >= num_warmup_iters` and, if so, resets the
counter to `0` and breaks (lines 147-149); otherwise it processes the
batch and runs `curr_iter += 1` (line 184).  When the loader exhausts the
`for` loop simply ends, with no reset. -/
def warmupLoop (num_warmup_iters : Nat) : Nat → Nat → Nat
  | curr_iter, 0 => curr_iter
  | curr_iter, fuel + 1 =>
    if num_warmup_iters ≤ curr_iter then 0
    else warmupLoop num_warmup_iters (curr_iter + 1) fuel

/-! ## Order of the per-iteration updates (`train`, lines 316-338) -/

/-- The operations at the tail of a training iteration, in source order. -/
inductive TrainOp where
  | backward
  | epsRestore
  | gradFuse
  | optStep
  | scalerUpdate
  | schedStep
  | emaUpdate
  | zeroGrad
deriving DecidableEq

/-- Lines 316-338 of `train()`: the AMP branch runs
`scaler.scale(loss).backward(); [x_sharp fixup]; scaler.step; scaler.update`,
the plain branch runs `loss.backward(); [x_sharp fixup]; optim.step()`;
both are followed by `sched.step()`, `net.update()` and
`model.zero_grad()`. -/
def trainIterTail (amp x_sharp : Bool) : List TrainOp :=
  (if amp then
    [TrainOp.backward]
      ++ (if x_sharp then [TrainOp.epsRestore, TrainOp.gradFuse] else [])
      ++ [TrainOp.optStep, TrainOp.scalerUpdate]
   else
    [TrainOp.backward]
      ++ (if x_sharp then [TrainOp.epsRestore, TrainOp.gradFuse] else [])
      ++ [TrainOp.optStep])
  ++ [TrainOp.schedStep, TrainOp.emaUpdate, TrainOp.zeroGrad]

/-! ## Batch-shape assertion (`train`, lines 239-253) -/

/-- The head of a training iteration: `num_lb` and `num_ulb` are taken from
the batch shapes, then `assert num_ulb == img_ulb_s.shape[0]` (line 242)
runs before `img = torch.cat(...)` and before any loss is computed.  A
failed assertion raises, modelled as `none`; otherwise the concatenated
batch is handed to the rest of the iteration (`rest`), which yields the
iteration's loss. -/
def trainIterHead (img_lb_w img_ulb_w img_ulb_s : List (List ℚ))
    (rest : List (List ℚ) → ℚ) : Option ℚ :=
  let num_ulb := img_ulb_w.length
  if num_ulb = img_ulb_s.length then
    some (rest (img_lb_w ++ img_ulb_w ++ img_ulb_s))
  else
    none

/-! ## Log-record construction (`train`, lines 253-261 and 344-356) -/

/-- The local names bound before line 344 on each branch of the loss
computation.  Outside the branch, line 253 binds `loss_lb`; the
non-sharp branch (lines 255-261) binds `loss_sat`, `mask`, `loss_saf`,
`hist_p_ulb_s`, `loss`; the sharp branch (lines 263-314) additionally
binds `loss_po` (line 304) among others. -/
def branchLocals (x_sharp : Bool) : List String :=
  if x_sharp then
    ["loss_lb", "loss_sat", "mask", "loss_saf", "hist_p_ulb_s",
     "pseudo_label_g", "pseudo_label_s", "po", "po_s", "loss_po", "loss"]
  else
    ["loss_lb", "loss_sat", "mask", "loss_saf", "hist_p_ulb_s", "loss"]

/-- The local names read by the `log_dict` literal (lines 344-356), in
evaluation order of its entries (reads of `self.*` attributes always
succeed and are omitted). -/
def logRecordReads : List String :=
  ["loss_lb", "loss_sat", "loss_saf", "loss_po", "loss", "mask",
   "hist_p_ulb_s"]

/-- Evaluating the `log_dict` literal: the first entry whose local name is
unbound raises `UnboundLocalError` naming it; otherwise the record is
built. -/
def buildLogRecord (bound : List String) : Except String Unit :=
  match logRecordReads.find? (fun n => !bound.contains n) with
  | some n => Except.error n
  | none => Except.ok ()

/-- Outcome of the log-record construction step of one training iteration,
as a function of the `x_sharp` flag (lines 344-356 run unconditionally on
every iteration, before the eval/log cadence checks). -/
def trainIterLogOutcome (x_sharp : Bool) : Except String Unit :=
  buildLogRecord (branchLocals x_sharp)

/-! ## Sharpness-aware first pass (`norm`, lines 128-130, and `train`,
lines 263-272) -/

/-- The squared value of
`torch.cat([x.flatten() for x in tensor_list if x is not None]).norm(2)`
(method `norm`, lines 128-130).  `torch.cat` raises when the comprehension
is empty, i.e. when every entry is `None`: this is `none`.  The square
root of the sum of squares is irrational in general, so the embedding
carries the sum of squares itself; the square root is strictly monotone
and fixes `0`, so definedness and zero-ness — all that the properties
below depend on — are unchanged. -/
def norm2Sq (tensor_list : List (Option (List ℚ))) : Option ℚ :=
  let xs := tensor_list.filterMap id
  if xs.isEmpty then none
  else some ((xs.flatten.map (fun x => x * x)).sum)

/-- `scale = self.rho / self.norm(self.grad_w)` (line 266).  The scale is
undefined when the norm computation itself raises (all gradients `None`)
or when the norm is zero — PyTorch float division by zero yields `inf`,
and the resulting `eps` entries `0 * inf` are NaN; both outcomes are
`none`.  The returned value divides by the squared norm where the code
divides by the norm: the missing square root never matters below, only
definedness does. -/
def sharpScale (rho : ℚ) (grad_w : List (Option (List ℚ))) : Option ℚ :=
  match norm2Sq grad_w with
  | none => none
  | some n => if n = 0 then none else some (rho / n)

/-- `self.eps = [g * scale if g is not None else None for g in self.grad_w]`
(line 267). -/
def sharpEpsList (scale : ℚ) (grad_w : List (Option (List ℚ))) :
    List (Option (List ℚ)) :=
  grad_w.map (fun g => g.map (fun t => t.map (fun x => x * scale)))

/-- The perturbation loop (lines 270-272):
`for p, v in zip(parameters, eps): if v is not None: p.add_(v)`.
`zip` pairs the two lists up to the shorter; unpaired parameters are left
untouched. -/
def perturbParams : List (List ℚ) → List (Option (List ℚ)) → List (List ℚ)
  | ps, [] => ps
  | [], _ => []
  | p :: ps, v :: vs =>
    (match v with
     | none => p
     | some w => List.zipWith (fun a b => a + b) p w) :: perturbParams ps vs

/-- The restoration loop (lines 330-332, and 320-322 in the AMP branch):
`for p, v, g in zip(parameters, eps, grad_w): if v is not None: p.sub_(v)`.
Only the parameter update is modelled; the gradient fusion `p.grad += g`
acts on `.grad`, not on the parameter value. -/
def restoreParams : List (List ℚ) → List (Option (List ℚ)) → List (List ℚ)
  | ps, [] => ps
  | [], _ => []
  | p :: ps, v :: vs =>
    (match v with
     | none => p
     | some w => List.zipWith (fun a b => a - b) p w) :: restoreParams ps vs

/-- Shape agreement between a parameter list and an eps list: wherever
`zip` pairs a parameter with a non-`None` eps entry, the two have the same
length (in the code `eps[i]` is `grad_w[i] * scale`, of the parameter's
shape). -/
def epsShapesMatch : List (List ℚ) → List (Option (List ℚ)) → Bool
  | _, [] => true
  | [], _ => true
  | p :: ps, v :: vs =>
    (match v with
     | none => true
     | some w => w.length == p.length) && epsShapesMatch ps vs

/-- Lines 264-272 as one step: compute the scale from the labeled-loss
gradients, build `eps`, and apply the perturbation to the parameters.
When the scale is undefined the step raises / degenerates (`none`);
there is no guard that skips the perturbation. -/
def sharpFirstPass (rho : ℚ) (params : List (List ℚ))
    (grad_w : List (Option (List ℚ))) : Option (List (List ℚ)) :=
  match sharpScale rho grad_w with
  | none => none
  | some scale => some (perturbParams params (sharpEpsList scale grad_w))

/-! ## Pseudo-label bank consistency term (`train`, lines 289-314) -/

/-- Row gather `bank[idx]` for an index tensor: row `j` of the result is
row `idx[j]` of the bank. -/
def gatherRows (bank : List (List ℚ)) (idx : List Nat) : List (List ℚ) :=
  idx.map (fun i => bank.getD i [])

/-- Elementwise tensor subtraction (operands have equal shapes in the
code; `zip` truncates otherwise). -/
def matSub (a b : List (List ℚ)) : List (List ℚ) :=
  List.zipWith (fun r s => List.zipWith (fun x y => x - y) r s) a b

/-- `nn.MSELoss()` with the default mean reduction: the mean of the
squared entrywise differences over all elements. -/
def mseLoss (a b : List (List ℚ)) : ℚ :=
  let sq := List.zipWith
    (fun r s => (List.zipWith (fun x y => (x - y) ^ 2) r s).sum) a b
  let n := (List.zipWith (fun r s => (List.zipWith (fun x _ => x) r s).length) a b).sum
  sq.sum / (n : ℚ)

/-- Row scatter `bank[idx] = rows`: position `idx[j]` of the bank is
overwritten with row `j`; on duplicate indices the last write wins. -/
def bankScatter (bank : List (List ℚ)) : List Nat → List (List ℚ) → List (List ℚ)
  | [], _ => bank
  | _, [] => bank
  | i :: is, r :: rs => bankScatter (bank.set i r) is rs

/-- Result of the consistency-term block: the `loss_po` scalar and the two
updated banks. -/
structure PoStepResult where
  loss_po : ℚ
  label_bank_w : List (List ℚ)
  label_bank_s : List (List ℚ)
deriving DecidableEq

/-- Lines 289-314 in source order, parameterised by this iteration's
softmax probabilities `pseudo_label_g = softmax(logits_ulb_w_hat)` and
`pseudo_label_s = softmax(logits_ulb_s_hat)` (the exp-based softmax is an
external real-valued operation; its outputs are taken as inputs here).
First the banks are read at the batch indices (lines 289-290), then the
two shift tensors `po`, `po_s` and `loss_po = MSELoss(po, po_s)` are
computed (lines 296-304), and only afterwards are the bank entries at
those indices overwritten with the detached probabilities (lines
313-314); `.detach()` is the identity on values. -/
def poStep (label_bank_w label_bank_s : List (List ℚ)) (idx : List Nat)
    (pseudo_label_g pseudo_label_s : List (List ℚ)) : PoStepResult :=
  let label_w_expanded := gatherRows label_bank_w idx
  let label_s_expanded := gatherRows label_bank_s idx
  let po := matSub pseudo_label_g label_w_expanded
  let po_s := matSub pseudo_label_s label_s_expanded
  let loss_po := mseLoss po po_s
  let bw := bankScatter label_bank_w idx pseudo_label_g
  let bs := bankScatter label_bank_s idx pseudo_label_s
  ⟨loss_po, bw, bs⟩

/-! ## Evaluation cadence and checkpoint persistence (`train`,
lines 224-227 and 358-390) -/

/-- Externally visible events of the training loop. -/
inductive LoopEvent where
  | trainIter (i : Nat)
  | evalRun (i : Nat)
  | saveBest (i : Nat)
  | saveLast (i : Nat)
deriving DecidableEq

/-- The best-accuracy bookkeeping read and written by the eval block. -/
structure BestState where
  best_test_acc : ℚ
  best_test_iter : Int
deriving DecidableEq

/-- The eval block (lines 360-372): run `validate()`, then, if the new
accuracy strictly exceeds `best_test_acc` (line 367), update the best
fields and save `best_checkpoint.pth`; in all cases save
`last_checkpoint.pth` afterwards (line 372). -/
def evalBlock (i : Nat) (acc : ℚ) (s : BestState) : BestState × List LoopEvent :=
  if s.best_test_acc < acc then
    (⟨acc, (i : Int)⟩, [LoopEvent.evalRun i, LoopEvent.saveBest i, LoopEvent.saveLast i])
  else
    (s, [LoopEvent.evalRun i, LoopEvent.saveLast i])

/-- The training loop (lines 224-390), projected onto iteration and
eval/checkpoint events.  `i` is `curr_iter`, `fuel` bounds the remaining
iterations (the minimum of the zipped loaders' remaining length and
`num_train_iters - curr_iter`), and `acc` gives the accuracy `validate()`
would report at each iteration.  Each pass emits its iteration event and,
when `(curr_iter + 1) % num_eval_iters == 0` (line 358), the eval block's
events.  After the loop ends the function returns immediately: `train()`
contains no further evaluation or checkpointing. -/
def trainLoopTrace (num_eval_iters : Nat) (acc : Nat → ℚ) :
    Nat → Nat → BestState → BestState × List LoopEvent
  | _, 0, s => (s, [])
  | i, fuel + 1, s =>
    let step :=
      if (i + 1) % num_eval_iters = 0 then evalBlock i (acc i) s
      else (s, [])
    let rest := trainLoopTrace num_eval_iters acc (i + 1) fuel step.1
    (rest.1, LoopEvent.trainIter i :: (step.2 ++ rest.2))

/-- The iteration index an event belongs to. -/
def eventIdx : LoopEvent → Nat
  | LoopEvent.trainIter i => i
  | LoopEvent.evalRun i => i
  | LoopEvent.saveBest i => i
  | LoopEvent.saveLast i => i

/-! ## Theorems -/

/-- C1: saving a checkpoint with `__save__model__` and loading it back with
`__load__model__` restores `curr_iter`, `best_test_acc`, `best_test_iter`
and the statistics `tau_t`, `p_t`, `label_hist` to their values at save
time. -/
theorem checkpoint_roundtrip (s : TrainerCore) :
    (loadModel s (saveModel s)).curr_iter = s.curr_iter ∧
    (loadModel s (saveModel s)).best_test_acc = s.best_test_acc ∧
    (loadModel s (saveModel s)).best_test_iter = s.best_test_iter ∧
    (loadModel s (saveModel s)).tau_t = s.tau_t ∧
    (loadModel s (saveModel s)).p_t = s.p_t ∧
    (loadModel s (saveModel s)).label_hist = s.label_hist :=
  ⟨rfl, rfl, rfl, rfl, rfl, rfl⟩

/-- C8: with `num_warmup_iters = 0` the warmup phase is skipped entirely
(no warmup transformer is applied), and training begins with the uniform
initial statistics: `p_t` and `label_hist` are the uniform vector with
every entry `1/C`, and `tau_t = 1/C`. -/
theorem warmup_skip_uniform (C : Nat) (hC : 0 < C) (warmup : Stats → Stats) :
    statsAfterWarmupPhase 0 warmup (initStats C) = initStats C ∧
    (initStats C).tau_t = 1 / (C : ℚ) ∧
    (initStats C).p_t = List.replicate C (1 / (C : ℚ)) ∧
    (initStats C).label_hist = List.replicate C (1 / (C : ℚ)) := by
  refine ⟨by simp [statsAfterWarmupPhase], ?_, rfl, rfl⟩
  have hC0 : (C : ℚ) ≠ 0 := Nat.cast_ne_zero.mpr hC.ne'
  show tmean (List.replicate C (1 / (C : ℚ))) = 1 / (C : ℚ)
  rw [tmean, List.sum_replicate, List.length_replicate, nsmul_eq_mul]
  field_simp

/-- Witness for C8 at ten classes, with the identity as the (unused)
warmup transformer. -/
theorem warmup_skip_uniform_witness :
    0 < 10 ∧
    (statsAfterWarmupPhase 0 id (initStats 10) = initStats 10 ∧
     (initStats 10).tau_t = 1 / (10 : ℚ) ∧
     (initStats 10).p_t = List.replicate 10 (1 / (10 : ℚ)) ∧
     (initStats 10).label_hist = List.replicate 10 (1 / (10 : ℚ))) :=
  ⟨by decide, warmup_skip_uniform 10 (by decide) id⟩

/-- C9: when the weak and strong unlabeled batches have different sizes,
the iteration raises the hard assertion before any loss is computed — for
every possible continuation `rest` the iteration yields no loss value, so
neither batch is silently truncated. -/
theorem ulb_shape_assert (img_lb_w img_ulb_w img_ulb_s : List (List ℚ))
    (h : img_ulb_w.length ≠ img_ulb_s.length) (rest : List (List ℚ) → ℚ) :
    trainIterHead img_lb_w img_ulb_w img_ulb_s rest = none := by
  simp only [trainIterHead, if_neg h]

/-- Witness for C9: a weak batch of one sample against an empty strong
batch. -/
theorem ulb_shape_assert_witness :
    ([[(1 : ℚ), 2]]).length ≠ ([] : List (List ℚ)).length ∧
    trainIterHead [] [[(1 : ℚ), 2]] [] (fun _ => 0) = none :=
  ⟨by decide, ulb_shape_assert [] [[(1 : ℚ), 2]] [] (by decide) (fun _ => 0)⟩

/-- C10: with `x_sharp` disabled, every training iteration fails while
building `log_dict`: the entry `train/po_loss` reads the local `loss_po`,
which only the sharpness-aware branch assigns, so the construction raises
an undefined-name error naming `loss_po` — the non-sharp path cannot
complete an iteration.  With `x_sharp` enabled the record builds fine. -/
theorem non_sharp_log_name_error :
    trainIterLogOutcome false = Except.error "loss_po" ∧
    trainIterLogOutcome true = Except.ok () :=
  ⟨rfl, rfl⟩

/-- C5: in every training iteration, on all four combinations of the AMP
and sharpness flags, the backward pass comes before the optimizer step,
the optimizer step before the scheduler step, and the scheduler step
before the EMA-model update, and all four occur in the iteration tail. -/
theorem train_step_order :
    ∀ amp x_sharp : Bool,
      (trainIterTail amp x_sharp).indexOf TrainOp.backward <
        (trainIterTail amp x_sharp).indexOf TrainOp.optStep ∧
      (trainIterTail amp x_sharp).indexOf TrainOp.optStep <
        (trainIterTail amp x_sharp).indexOf TrainOp.schedStep ∧
      (trainIterTail amp x_sharp).indexOf TrainOp.schedStep <
        (trainIterTail amp x_sharp).indexOf TrainOp.emaUpdate ∧
      (trainIterTail amp x_sharp).indexOf TrainOp.emaUpdate <
        (trainIterTail amp x_sharp).length := by
  intro amp x_sharp
  cases amp <;> cases x_sharp <;> decide

/-- C3 counterexample: a labeled loader yielding a single batch with
`num_warmup_iters = 5` exits warmup by loader exhaustion, and the counter
is then `1`, not `0` as the claim states for both exit cases. -/
theorem warmup_counter_counterexample : warmupLoop 5 0 1 ≠ 0 := by decide

/-- Closed form of the warmup loop counter: starting from counter `c` with
`fuel` batches available, the loop returns `0` exactly when the counter
check fires (which needs strictly more than `n - c` batches), and
otherwise returns `c + fuel` after exhausting the loader. -/
theorem warmupLoop_eq (n : Nat) :
    ∀ (fuel c : Nat), warmupLoop n c fuel = if n - c < fuel then 0 else c + fuel := by
  intro fuel
  induction fuel with
  | zero => intro c; simp [warmupLoop]
  | succ fuel ih =>
    intro c
    rw [warmupLoop]
    by_cases h : n ≤ c
    · rw [if_pos h, if_pos (by omega)]
    · rw [if_neg h, ih (c + 1)]
      by_cases h2 : n - (c + 1) < fuel
      · rw [if_pos h2, if_pos (by omega)]
      · rw [if_neg h2, if_neg (by omega)]
        omega

/-- C3 amended: the warmup phase still terminates at the earlier of the
counter bound and loader exhaustion, but `curr_iter` is reset to zero only
on the counter-bound exit (the loader must yield strictly more than
`num_warmup_iters` batches); when the loader exhausts first, `curr_iter`
equals the number of processed batches, which is nonzero whenever at
least one batch was processed. -/
theorem warmup_counter_amended (n b : Nat) :
    warmupLoop n 0 b = if n < b then 0 else b := by
  have h := warmupLoop_eq n b 0
  simpa using h

/-- C2 counterexample: with a single parameter and its labeled-loss
gradient `None`, the claim says the perturbation is skipped and the
iteration proceeds with the parameters unchanged; in the code `torch.cat`
over the empty filtered gradient list raises, so the first pass never
produces the unchanged parameters. -/
theorem sharp_allnone_counterexample :
    sharpFirstPass (5 / 100) [[(1 : ℚ)]] [none] ≠ some [[(1 : ℚ)]] := by decide

/-- C2 amended: the code guards neither degenerate case.  When every
per-parameter gradient is `None`, the norm computation itself raises
(`torch.cat` of an empty list), and when the concatenated gradient has
zero norm, the scale `rho / norm` is an infinity and the perturbation
entries are NaN; in both cases the first pass fails to complete with
defined values instead of being skipped as a zero perturbation. -/
theorem sharp_zero_grad_unguarded (rho : ℚ) (params : List (List ℚ))
    (grad_w : List (Option (List ℚ)))
    (h : (∀ g ∈ grad_w, g = none) ∨ norm2Sq grad_w = some 0) :
    sharpFirstPass rho params grad_w = none := by
  rcases h with h | h
  · have hnil : grad_w.filterMap id = [] := by
      rw [List.filterMap_eq_nil_iff]
      intro g hg
      simp [h g hg]
    simp [sharpFirstPass, sharpScale, norm2Sq, hnil]
  · simp [sharpFirstPass, sharpScale, h]

/-- Witness for C2 (amended) at the all-`None` gradient list. -/
theorem sharp_zero_grad_unguarded_witness :
    ((∀ g ∈ ([none] : List (Option (List ℚ))), g = none) ∨
      norm2Sq [none] = some 0) ∧
    sharpFirstPass 1 [[(1 : ℚ)]] [none] = none :=
  ⟨Or.inl (by decide), sharp_zero_grad_unguarded 1 [[(1 : ℚ)]] [none] (Or.inl (by decide))⟩

/-- Adding a vector entrywise and subtracting it again is the identity
when the two vectors have the same length. -/
theorem zipWith_add_sub (p w : List ℚ) (h : w.length = p.length) :
    List.zipWith (fun a b => a - b) (List.zipWith (fun a b => a + b) p w) w = p := by
  induction p generalizing w with
  | nil => simp
  | cons x xs ih =>
    cases w with
    | nil => simp at h
    | cons y ys =>
      simp only [List.zipWith_cons_cons, add_sub_cancel_right, List.cons.injEq,
        true_and]
      exact ih ys (by simpa using h)

/-- C4: in sharpness-aware mode, applying the perturbation `eps` to the
parameters and later subtracting the same `eps` (no optimizer step in
between) restores every parameter to its original value under exact
arithmetic, whenever each non-`None` eps entry has its parameter's shape
(as it does in the code, where `eps[i] = grad_w[i] * scale`). -/
theorem perturb_restore_roundtrip (params : List (List ℚ))
    (eps : List (Option (List ℚ))) (h : epsShapesMatch params eps = true) :
    restoreParams (perturbParams params eps) eps = params := by
  induction eps generalizing params with
  | nil => cases params <;> rfl
  | cons v vs ih =>
    cases params with
    | nil => rfl
    | cons p ps =>
      cases v with
      | none =>
        simp only [epsShapesMatch, Bool.true_and] at h
        show p :: restoreParams (perturbParams ps vs) vs = p :: ps
        rw [ih ps h]
      | some w =>
        simp only [epsShapesMatch, Bool.and_eq_true, beq_iff_eq] at h
        show List.zipWith (fun a b => a - b)
            (List.zipWith (fun a b => a + b) p w) w ::
          restoreParams (perturbParams ps vs) vs = p :: ps
        rw [ih ps h.2, zipWith_add_sub p w h.1]

/-- Witness for C4: two parameter tensors, the second with a `None`
gradient entry. -/
theorem perturb_restore_roundtrip_witness :
    epsShapesMatch [[(1 : ℚ), 2], [3]] [some [4, 5], none] = true ∧
    restoreParams (perturbParams [[(1 : ℚ), 2], [3]] [some [4, 5], none])
      [some [4, 5], none] = [[(1 : ℚ), 2], [3]] :=
  ⟨by decide, perturb_restore_roundtrip [[(1 : ℚ), 2], [3]] [some [4, 5], none] (by decide)⟩

/-- Scattering does not change the bank's length. -/
theorem bankScatter_length (idx : List Nat) :
    ∀ (bank rows : List (List ℚ)), (bankScatter bank idx rows).length = bank.length := by
  induction idx with
  | nil => intro bank rows; cases rows <;> rfl
  | cons i is ih =>
    intro bank rows
    cases rows with
    | nil => rfl
    | cons r rs =>
      show (bankScatter (bank.set i r) is rs).length = bank.length
      rw [ih, List.length_set]

/-- Positions outside the scattered index list keep their old rows. -/
theorem bankScatter_getD_not_mem (idx : List Nat) :
    ∀ (bank rows : List (List ℚ)) (i : Nat), i ∉ idx →
      (bankScatter bank idx rows).getD i [] = bank.getD i [] := by
  induction idx with
  | nil => intro bank rows i _; cases rows <;> rfl
  | cons j js ih =>
    intro bank rows i hi
    rw [List.mem_cons, not_or] at hi
    cases rows with
    | nil => rfl
    | cons r rs =>
      show (bankScatter (bank.set j r) js rs).getD i [] = bank.getD i []
      rw [ih (bank.set j r) rs i hi.2]
      rw [List.getD_eq_getElem?_getD, List.getD_eq_getElem?_getD,
        List.getElem?_set_ne (fun h => hi.1 h.symm)]

/-- With pairwise-distinct in-range indices, position `idx[j]` of the
scattered bank holds row `j`. -/
theorem bankScatter_getD_mem (idx : List Nat) :
    ∀ (bank rows : List (List ℚ)) (j : Nat), idx.Nodup → j < idx.length →
      j < rows.length → idx.getD j 0 < bank.length →
      (bankScatter bank idx rows).getD (idx.getD j 0) [] = rows.getD j [] := by
  induction idx with
  | nil => intro bank rows j _ hj; simp at hj
  | cons i is ih =>
    intro bank rows j hnd hj hr hb
    cases rows with
    | nil => simp at hr
    | cons r rs =>
      cases j with
      | zero =>
        have hni : i ∉ is := (List.nodup_cons.mp hnd).1
        rw [List.getD_cons_zero] at hb ⊢
        show (bankScatter (bank.set i r) is rs).getD i [] = r
        rw [bankScatter_getD_not_mem is (bank.set i r) rs i hni,
          List.getD_eq_getElem?_getD, List.getElem?_set_eq_of_lt r hb,
          Option.getD_some]
      | succ j =>
        rw [List.getD_cons_succ] at hb ⊢
        show (bankScatter (bank.set i r) is rs).getD (is.getD j 0) [] = rs.getD j []
        exact ih (bank.set i r) rs j (List.nodup_cons.mp hnd).2
          (by simpa using hj) (by simpa using hr) (by simpa using hb)

/-- C7: the consistency term of a sharpness-aware iteration equals the
mean squared error between the weak shift (this iteration's weak softmax
minus the bank's previously stored weak rows at the batch indices) and
the strong shift (likewise for the strong view), computed against the
bank as it was before the iteration; afterwards the bank entries at the
batch indices — and only those — are overwritten with this iteration's
detached probabilities. -/
theorem po_step_spec (bw bs : List (List ℚ)) (idx : List Nat)
    (pg ps : List (List ℚ)) (hnd : idx.Nodup)
    (hw : ∀ i ∈ idx, i < bw.length) (hs : ∀ i ∈ idx, i < bs.length)
    (hlg : idx.length = pg.length) (hls : idx.length = ps.length) :
    (poStep bw bs idx pg ps).loss_po =
      mseLoss (matSub pg (gatherRows bw idx)) (matSub ps (gatherRows bs idx)) ∧
    (∀ j, j < idx.length →
      (poStep bw bs idx pg ps).label_bank_w.getD (idx.getD j 0) [] = pg.getD j [] ∧
      (poStep bw bs idx pg ps).label_bank_s.getD (idx.getD j 0) [] = ps.getD j []) ∧
    (∀ i, i ∉ idx →
      (poStep bw bs idx pg ps).label_bank_w.getD i [] = bw.getD i [] ∧
      (poStep bw bs idx pg ps).label_bank_s.getD i [] = bs.getD i []) := by
  refine ⟨rfl, ?_, ?_⟩
  · intro j hj
    have hmem : idx.getD j 0 ∈ idx := by
      rw [List.getD_eq_getElem idx 0 hj]
      exact List.getElem_mem hj
    exact ⟨bankScatter_getD_mem idx bw pg j hnd hj (hlg ▸ hj) (hw _ hmem),
      bankScatter_getD_mem idx bs ps j hnd hj (hls ▸ hj) (hs _ hmem)⟩
  · intro i hi
    exact ⟨bankScatter_getD_not_mem idx bw pg i hi,
      bankScatter_getD_not_mem idx bs ps i hi⟩

/-- Witness for C7: a three-sample bank with two classes, a batch holding
samples 2 and 0, and concrete softmax outputs for the two views. -/
theorem po_step_spec_witness :
    ([2, 0] : List Nat).Nodup ∧
    (∀ i ∈ ([2, 0] : List Nat),
      i < ([[(0 : ℚ), 0], [0, 0], [0, 0]] : List (List ℚ)).length) ∧
    (∀ i ∈ ([2, 0] : List Nat),
      i < ([[(0 : ℚ), 0], [0, 0], [0, 0]] : List (List ℚ)).length) ∧
    ([2, 0] : List Nat).length = ([[(1 : ℚ), 0], [0, 1]] : List (List ℚ)).length ∧
    ([2, 0] : List Nat).length =
      ([[(3 : ℚ)/4, 1/4], [1/4, 3/4]] : List (List ℚ)).length ∧
    ((poStep [[(0 : ℚ), 0], [0, 0], [0, 0]] [[(0 : ℚ), 0], [0, 0], [0, 0]]
        [2, 0] [[(1 : ℚ), 0], [0, 1]] [[(3 : ℚ)/4, 1/4], [1/4, 3/4]]).loss_po =
      mseLoss
        (matSub [[(1 : ℚ), 0], [0, 1]]
          (gatherRows [[(0 : ℚ), 0], [0, 0], [0, 0]] [2, 0]))
        (matSub [[(3 : ℚ)/4, 1/4], [1/4, 3/4]]
          (gatherRows [[(0 : ℚ), 0], [0, 0], [0, 0]] [2, 0])) ∧
    (∀ j, j < ([2, 0] : List Nat).length →
      (poStep [[(0 : ℚ), 0], [0, 0], [0, 0]] [[(0 : ℚ), 0], [0, 0], [0, 0]]
          [2, 0] [[(1 : ℚ), 0], [0, 1]] [[(3 : ℚ)/4, 1/4], [1/4, 3/4]]).label_bank_w.getD
          (([2, 0] : List Nat).getD j 0) [] =
        ([[(1 : ℚ), 0], [0, 1]] : List (List ℚ)).getD j [] ∧
      (poStep [[(0 : ℚ), 0], [0, 0], [0, 0]] [[(0 : ℚ), 0], [0, 0], [0, 0]]
          [2, 0] [[(1 : ℚ), 0], [0, 1]] [[(3 : ℚ)/4, 1/4], [1/4, 3/4]]).label_bank_s.getD
          (([2, 0] : List Nat).getD j 0) [] =
        ([[(3 : ℚ)/4, 1/4], [1/4, 3/4]] : List (List ℚ)).getD j []) ∧
    (∀ i, i ∉ ([2, 0] : List Nat) →
      (poStep [[(0 : ℚ), 0], [0, 0], [0, 0]] [[(0 : ℚ), 0], [0, 0], [0, 0]]
          [2, 0] [[(1 : ℚ), 0], [0, 1]] [[(3 : ℚ)/4, 1/4], [1/4, 3/4]]).label_bank_w.getD
          i [] = ([[(0 : ℚ), 0], [0, 0], [0, 0]] : List (List ℚ)).getD i [] ∧
      (poStep [[(0 : ℚ), 0], [0, 0], [0, 0]] [[(0 : ℚ), 0], [0, 0], [0, 0]]
          [2, 0] [[(1 : ℚ), 0], [0, 1]] [[(3 : ℚ)/4, 1/4], [1/4, 3/4]]).label_bank_s.getD
          i [] = ([[(0 : ℚ), 0], [0, 0], [0, 0]] : List (List ℚ)).getD i [])) :=
  ⟨by decide, by decide, by decide, rfl, rfl,
    po_step_spec [[(0 : ℚ), 0], [0, 0], [0, 0]] [[(0 : ℚ), 0], [0, 0], [0, 0]]
      [2, 0] [[(1 : ℚ), 0], [0, 1]] [[(3 : ℚ)/4, 1/4], [1/4, 3/4]]
      (by decide) (by decide) (by decide) rfl rfl⟩

/-- An eval event belongs to the eval block of its own iteration only. -/
theorem evalRun_mem_evalBlock (i j : Nat) (a : ℚ) (t : BestState) :
    LoopEvent.evalRun j ∈ (evalBlock i a t).2 ↔ j = i := by
  rw [evalBlock]
  by_cases h : t.best_test_acc < a
  · rw [if_pos h]; simp
  · rw [if_neg h]; simp

/-- The eval block always emits a last-checkpoint save, for its own
iteration only. -/
theorem saveLast_mem_evalBlock (i j : Nat) (a : ℚ) (t : BestState) :
    LoopEvent.saveLast j ∈ (evalBlock i a t).2 ↔ j = i := by
  rw [evalBlock]
  by_cases h : t.best_test_acc < a
  · rw [if_pos h]; simp
  · rw [if_neg h]; simp

/-- The eval block emits a best-checkpoint save exactly when the new
accuracy strictly exceeds the best accuracy so far. -/
theorem saveBest_mem_evalBlock (i j : Nat) (a : ℚ) (t : BestState) :
    LoopEvent.saveBest j ∈ (evalBlock i a t).2 ↔ (j = i ∧ t.best_test_acc < a) := by
  rw [evalBlock]
  by_cases h : t.best_test_acc < a
  · rw [if_pos h]; simp [h]
  · rw [if_neg h]; simp [h]

/-- An eval event appears in the loop trace exactly for the in-range
iterations that hit the cadence. -/
theorem evalRun_mem_trainLoopTrace (k : Nat) (acc : Nat → ℚ) :
    ∀ (fuel i : Nat) (s : BestState) (j : Nat),
      (LoopEvent.evalRun j ∈ (trainLoopTrace k acc i fuel s).2 ↔
        i ≤ j ∧ j < i + fuel ∧ (j + 1) % k = 0) := by
  intro fuel
  induction fuel with
  | zero =>
    intro i s j
    simp only [trainLoopTrace, List.not_mem_nil, false_iff]
    omega
  | succ fuel ih =>
    intro i s j
    simp only [trainLoopTrace, List.mem_cons, List.mem_append, reduceCtorEq,
      false_or]
    by_cases hc : (i + 1) % k = 0
    · rw [if_pos hc, evalRun_mem_evalBlock, ih]
      constructor
      · rintro (rfl | ⟨h1, h2, h3⟩)
        · exact ⟨Nat.le_refl _, by omega, hc⟩
        · exact ⟨by omega, by omega, h3⟩
      · rintro ⟨h1, h2, h3⟩
        rcases eq_or_ne j i with rfl | hne
        · exact Or.inl rfl
        · exact Or.inr ⟨by omega, by omega, h3⟩
    · rw [if_neg hc]
      simp only [List.not_mem_nil, false_or]
      rw [ih]
      constructor
      · rintro ⟨h1, h2, h3⟩
        exact ⟨by omega, by omega, h3⟩
      · rintro ⟨h1, h2, h3⟩
        have hne : j ≠ i := fun he => hc (he ▸ h3)
        exact ⟨by omega, by omega, h3⟩

/-- A last-checkpoint save appears in the loop trace exactly for the
in-range iterations that hit the cadence. -/
theorem saveLast_mem_trainLoopTrace (k : Nat) (acc : Nat → ℚ) :
    ∀ (fuel i : Nat) (s : BestState) (j : Nat),
      (LoopEvent.saveLast j ∈ (trainLoopTrace k acc i fuel s).2 ↔
        i ≤ j ∧ j < i + fuel ∧ (j + 1) % k = 0) := by
  intro fuel
  induction fuel with
  | zero =>
    intro i s j
    simp only [trainLoopTrace, List.not_mem_nil, false_iff]
    omega
  | succ fuel ih =>
    intro i s j
    simp only [trainLoopTrace, List.mem_cons, List.mem_append, reduceCtorEq,
      false_or]
    by_cases hc : (i + 1) % k = 0
    · rw [if_pos hc, saveLast_mem_evalBlock, ih]
      constructor
      · rintro (rfl | ⟨h1, h2, h3⟩)
        · exact ⟨Nat.le_refl _, by omega, hc⟩
        · exact ⟨by omega, by omega, h3⟩
      · rintro ⟨h1, h2, h3⟩
        rcases eq_or_ne j i with rfl | hne
        · exact Or.inl rfl
        · exact Or.inr ⟨by omega, by omega, h3⟩
    · rw [if_neg hc]
      simp only [List.not_mem_nil, false_or]
      rw [ih]
      constructor
      · rintro ⟨h1, h2, h3⟩
        exact ⟨by omega, by omega, h3⟩
      · rintro ⟨h1, h2, h3⟩
        have hne : j ≠ i := fun he => hc (he ▸ h3)
        exact ⟨by omega, by omega, h3⟩

/-- C6 counterexample: two training iterations with `num_eval_iters = 5`
(cadence never reached): the complete event trace of `train()` is just
the two iteration events — contrary to the claim, no evaluation (and no
checkpoint) happens when the training loop ends. -/
theorem eval_at_loop_end_counterexample :
    (trainLoopTrace 5 (fun _ => 0) 0 2 ⟨-1, -1⟩).2 =
      [LoopEvent.trainIter 0, LoopEvent.trainIter 1] := by
  decide

/-- C6 amended: evaluation runs exactly at the fixed cadence — the
iterations where `(curr_iter + 1) % num_eval_iters == 0` — and no
additional evaluation happens when the training loop ends; at each
evaluation a last checkpoint is always persisted, and a best checkpoint
is persisted exactly when the new accuracy strictly exceeds the best
accuracy so far. -/
theorem eval_cadence_spec (k n : Nat) (_hk : 0 < k) (acc : Nat → ℚ)
    (s : BestState) :
    (∀ j, LoopEvent.evalRun j ∈ (trainLoopTrace k acc 0 n s).2 ↔
      j < n ∧ (j + 1) % k = 0) ∧
    (∀ j, LoopEvent.saveLast j ∈ (trainLoopTrace k acc 0 n s).2 ↔
      LoopEvent.evalRun j ∈ (trainLoopTrace k acc 0 n s).2) ∧
    (∀ (j : Nat) (a : ℚ) (t : BestState),
      (LoopEvent.saveBest j ∈ (evalBlock j a t).2 ↔ t.best_test_acc < a) ∧
      LoopEvent.evalRun j ∈ (evalBlock j a t).2 ∧
      LoopEvent.saveLast j ∈ (evalBlock j a t).2) := by
  refine ⟨?_, ?_, ?_⟩
  · intro j
    rw [evalRun_mem_trainLoopTrace]
    constructor
    · rintro ⟨_, h2, h3⟩; exact ⟨by omega, h3⟩
    · rintro ⟨h1, h2⟩; exact ⟨Nat.zero_le _, by omega, h2⟩
  · intro j
    rw [saveLast_mem_trainLoopTrace, evalRun_mem_trainLoopTrace]
  · intro j a t
    refine ⟨?_, (evalRun_mem_evalBlock j j a t).mpr rfl,
      (saveLast_mem_evalBlock j j a t).mpr rfl⟩
    rw [saveBest_mem_evalBlock]
    simp

/-- Witness for C6 (amended): three iterations with cadence two, constant
zero accuracy and the initial best state. -/
theorem eval_cadence_spec_witness :
    0 < 2 ∧
    ((∀ j, LoopEvent.evalRun j ∈ (trainLoopTrace 2 (fun _ => 0) 0 3 ⟨-1, -1⟩).2 ↔
        j < 3 ∧ (j + 1) % 2 = 0) ∧
     (∀ j, LoopEvent.saveLast j ∈ (trainLoopTrace 2 (fun _ => 0) 0 3 ⟨-1, -1⟩).2 ↔
        LoopEvent.evalRun j ∈ (trainLoopTrace 2 (fun _ => 0) 0 3 ⟨-1, -1⟩).2) ∧
     (∀ (j : Nat) (a : ℚ) (t : BestState),
        (LoopEvent.saveBest j ∈ (evalBlock j a t).2 ↔ t.best_test_acc < a) ∧
        LoopEvent.evalRun j ∈ (evalBlock j a t).2 ∧
        LoopEvent.saveLast j ∈ (evalBlock j a t).2)) :=
  ⟨by decide, eval_cadence_spec 2 3 (by decide) (fun _ => 0) ⟨-1, -1⟩⟩

end FreeMatch
